import Mathlib

/-!
Shallow embedding of the pendant-maker profile editor (src/main.js and
src/unnamed/part_000).  Model-space coordinates are embedded as exact
rationals: every arithmetic operation the program performs on coordinates
(addition, subtraction, multiplication, division by the constant scale,
max/min clamps) is exact on rational inputs, so `ℚ` is a faithful carrier.
The only irrational operation, `Math.sqrt` inside distance computations, is
used by the program exclusively for comparisons (`dist < 6`,
`dist < closestDist`); since `sqrt` is strictly monotone on nonnegative
reals, those comparisons are equivalent to the same comparisons of the
squared distances, which is how they are embedded here (with the squared
thresholds, e.g. `36` for the 6-pixel hit radius).
-/

namespace PendantMaker

/-- `THREE.Vector2`: a 2D point with rational coordinates. -/
structure Vec2 where
  x : ℚ
  y : ℚ
deriving DecidableEq, Repr

/-- JavaScript `Math.max` on (non-NaN) numbers. -/
def qmax (a b : ℚ) : ℚ := if a ≤ b then b else a

/-- JavaScript `Math.min` on (non-NaN) numbers. -/
def qmin (a b : ℚ) : ℚ := if a ≤ b then a else b

/-- `const worldScale = 50;` -/
def worldScale : ℚ := 50

/-- `toCanvasCoords(worldPoint)` from the source, parameterized by the canvas
pixel dimensions `W = profileCanvas.width`, `H = profileCanvas.height`:
`x = W/2 + worldPoint.x * worldScale; y = H/2 - worldPoint.y * worldScale`. -/
def toCanvasCoords (W H : ℚ) (worldPoint : Vec2) : Vec2 :=
  ⟨W / 2 + worldPoint.x * worldScale, H / 2 - worldPoint.y * worldScale⟩

/-- `toWorldCoords(canvasPoint)` from the source:
`x = (canvasPoint.x - W/2) / worldScale; y = (H/2 - canvasPoint.y) / worldScale`. -/
def toWorldCoords (W H : ℚ) (canvasPoint : Vec2) : Vec2 :=
  ⟨(canvasPoint.x - W / 2) / worldScale, (H / 2 - canvasPoint.y) / worldScale⟩

/-- The default 4-point profile `DEFAULT_POINTS`. -/
def DEFAULT_POINTS : List Vec2 :=
  [⟨1/2, 2⟩, ⟨3/2, 1⟩, ⟨3/2, -1⟩, ⟨1/2, -2⟩]

/-- The profile-construction section of `update3DModel` (the spec calls it
`buildRevolutionProfile`): copy the points, `unshift` a cap `(0, first.y)`
when `firstPoint.x > 0`, `push` a cap `(0, last.y)` when the (post-unshift)
last point has `x > 0`, then map `pClone.x = Math.max(0.01, pClone.x)` over
the whole resulting list.  Lean lists are immutable, so the "copy" step and
the source's non-mutation of `points` are inherent in the embedding. -/
def buildRevolutionProfile (points : List Vec2) : List Vec2 :=
  let up1 : List Vec2 :=
    match points.head? with
    | some firstPoint => if firstPoint.x > 0 then ⟨0, firstPoint.y⟩ :: points else points
    | none => points
  let up2 : List Vec2 :=
    match up1.getLast? with
    | some lastPoint => if lastPoint.x > 0 then up1 ++ [⟨0, lastPoint.y⟩] else up1
    | none => up1
  up2.map (fun p => ⟨qmax (1/100) p.x, p.y⟩)

/-- `update3DModel`'s geometric content: `if (points.length < 2) return;`
then build the revolution profile fed to `LatheGeometry`.  `none` models the
early return ("no solid producible" / skip mesh rebuild). -/
def update3DModel (points : List Vec2) : Option (List Vec2) :=
  if points.length < 2 then none else some (buildRevolutionProfile points)

/-- The polyline-drawing part of `drawProfile`: after drawing the axis it
does `if (points.length < 2) return;`, otherwise it strokes the polyline
through `toCanvasCoords(points[i])`.  `none` models the early return. -/
def drawProfilePolyline (W H : ℚ) (points : List Vec2) : Option (List Vec2) :=
  if points.length < 2 then none else some (points.map (toCanvasCoords W H))

/-- The mutable editor state: `points`, `selectedPoint` (JS `null` = `none`)
and `isDragging`. -/
structure EditorState where
  points : List Vec2
  selectedPoint : Option ℕ
  isDragging : Bool
deriving DecidableEq, Repr

/-- Squared Euclidean distance between two points.  The source computes
`Math.sqrt(dx^2 + dy^2)` (resp. `distanceTo`) and only ever compares the
result against other distances or the constant 6; `sqrt` being strictly
monotone, we embed the squared quantity and square the thresholds. -/
def distSq (a b : Vec2) : ℚ := (a.x - b.x) ^ 2 + (a.y - b.y) ^ 2

/-- The hit-test loop shared by the `mousedown` and `dblclick` handlers:
scan `points` in order and return the index of the first point whose canvas
position is within 6 pixels of the mouse (`dist < 6`, i.e. squared distance
`< 36`), or `none`. -/
def hitTestLoop (W H : ℚ) (mousePos : Vec2) : List Vec2 → ℕ → Option ℕ
  | [], _ => none
  | p :: rest, i =>
    if distSq (toCanvasCoords W H p) mousePos < 36 then some i
    else hitTestLoop W H mousePos rest (i + 1)

/-- Hit-test starting at index 0, as both handlers' `for` loops do. -/
def hitTest (W H : ℚ) (points : List Vec2) (mousePos : Vec2) : Option ℕ :=
  hitTestLoop W H mousePos points 0

/-- `distanceToSegment(p, v, w)`, squared (see `distSq`): `l2 = |v-w|²`; if
`l2 === 0` return the distance `p`–`v`; otherwise project, clamp
`t = max(0, min(1, t))`, and return the distance from `p` to the clamped
projection.  `t` itself is an exact rational, so only the final `sqrt` is
dropped by squaring. -/
def distanceToSegmentSq (p v w : Vec2) : ℚ :=
  let l2 := distSq v w
  if l2 = 0 then distSq p v
  else
    let t := ((p.x - v.x) * (w.x - v.x) + (p.y - v.y) * (w.y - v.y)) / l2
    let t2 := qmax 0 (qmin 1 t)
    let projection : Vec2 := ⟨v.x + t2 * (w.x - v.x), v.y + t2 * (w.y - v.y)⟩
    distSq p projection

/-- The list of (squared) distances from `worldPos` to the successive
segments `(points[i], points[i+1])`, `i = 0 .. points.length - 2` — the
values the insertion loop computes. -/
def segmentDists (worldPos : Vec2) : List Vec2 → List ℚ
  | p1 :: p2 :: rest => distanceToSegmentSq worldPos p1 p2 :: segmentDists worldPos (p2 :: rest)
  | _ => []

/-- `dist < closestDist` where `closestDist` starts as `Infinity` (`none`). -/
def ltClosest (d : ℚ) : Option ℚ → Bool
  | none => true
  | some c => decide (d < c)

/-- The insertion `for` loop of the `mousedown` handler: running over the
segment distances `ds` with loop counter `i`, carrying `closestDist`
(`none` = `Infinity`) and `insertionIndex`, update both whenever
`dist < closestDist`, setting `insertionIndex = i + 1`. -/
def insLoop : List ℚ → ℕ → Option ℚ → ℕ → Option ℚ × ℕ
  | [], _, closest, idx => (closest, idx)
  | d :: rest, i, closest, idx =>
    if ltClosest d closest then insLoop rest (i + 1) (some d) (i + 1)
    else insLoop rest (i + 1) closest idx

/-- `insertionIndex` as computed by the `mousedown` handler: the loop starts
from `closestDist = Infinity` and `insertionIndex = points.length`. -/
def findInsertionIndex (worldPos : Vec2) (points : List Vec2) : ℕ :=
  (insLoop (segmentDists worldPos points) 0 none points.length).2

/-- The `mousedown` handler: hit-test every point in order; on a hit select
it (and start dragging); on a miss convert the mouse position to world
coordinates, find the insertion index by the nearest-segment loop, `splice`
the new point in at that index, and select it. -/
def mousedown (W H : ℚ) (st : EditorState) (mousePos : Vec2) : EditorState :=
  match hitTest W H st.points mousePos with
  | some i => { st with selectedPoint := some i, isDragging := true }
  | none =>
    let worldPos := toWorldCoords W H mousePos
    let insertionIndex := findInsertionIndex worldPos st.points
    { st with points := st.points.insertIdx insertionIndex worldPos,
              selectedPoint := some insertionIndex }

/-- The `dblclick` handler: find the first point within 6 px; if found and
`points.length > 2`, `splice` it out and clear the selection (then `break`);
otherwise nothing happens.  (When `points.length <= 2` the JS loop keeps
scanning, but every further iteration is also a no-op, so the handler
leaves the state unchanged.) -/
def dblclick (W H : ℚ) (st : EditorState) (mousePos : Vec2) : EditorState :=
  match hitTest W H st.points mousePos with
  | some i =>
    if 2 < st.points.length then
      { st with points := st.points.eraseIdx i, selectedPoint := none }
    else st
  | none => st

/-- `handleMouseMove`: bail out unless dragging with a selection; clamp the
mouse position to the canvas bounds, convert to world coordinates, clamp
`worldPos.x = Math.max(0, worldPos.x)`, and overwrite the selected point. -/
def handleMouseMove (W H : ℚ) (st : EditorState) (mouse : Vec2) : EditorState :=
  match st.isDragging, st.selectedPoint with
  | true, some i =>
    let mouseX := qmax 0 (qmin W mouse.x)
    let mouseY := qmax 0 (qmin H mouse.y)
    let worldPos := toWorldCoords W H ⟨mouseX, mouseY⟩
    { st with points := st.points.set i ⟨qmax 0 worldPos.x, worldPos.y⟩ }
  | _, _ => st

/-- `handleMouseUp`: stop dragging (listener bookkeeping has no state here). -/
def handleMouseUp (st : EditorState) : EditorState :=
  { st with isDragging := false }

/-- `handleCoordinateChange`: with a selected point and both inputs parsing
to numbers (`none` models `parseFloat` returning `NaN`), set the point to
`(Math.max(0, newX), newY)`; otherwise do nothing. -/
def handleCoordinateChange (st : EditorState) (newX newY : Option ℚ) : EditorState :=
  match st.selectedPoint with
  | some i =>
    match newX, newY with
    | some nx, some ny => { st with points := st.points.set i ⟨qmax 0 nx, ny⟩ }
    | _, _ => st
  | none => st

/-- `resetState` (the confirmed branch): restore the default points, clear
the selection. -/
def resetState (st : EditorState) : EditorState :=
  { st with points := DEFAULT_POINTS, selectedPoint := none }

/-- JSON values as produced by `JSON.parse` (numbers kept exact). -/
inductive Json where
  | null
  | bool (b : Bool)
  | num (q : ℚ)
  | str (s : String)
  | arr (elems : List Json)
  | obj (fields : List (String × Json))

/-- JavaScript property access `p.k` as used by the import validator:
`null.k` throws a `TypeError` (modelled `Except.error`), an object yields
its property (first binding) or `undefined` (`none`), and any other
primitive yields `undefined`.  `JSON.parse` never yields `undefined`, so
`null` is the only thrower reachable here. -/
def jsGetField : Json → String → Except Unit (Option Json)
  | .null, _ => .error ()
  | .obj fields, k => .ok (fields.lookup k)
  | _, _ => .ok none

/-- `typeof v === 'number'` (with `v` possibly `undefined` = `none`). -/
def typeofIsNumber : Option Json → Bool
  | some (.num _) => true
  | _ => false

/-- The element predicate of `importData`'s validator:
`typeof p.x === 'number' && typeof p.y === 'number'`, with JavaScript's
short-circuiting and exception propagation. -/
def elementNumericXY (p : Json) : Except Unit Bool := do
  let px ← jsGetField p "x"
  if typeofIsNumber px then do
    let py ← jsGetField p "y"
    pure (typeofIsNumber py)
  else pure false

/-- `json.every(p => ...)` over the element predicate: short-circuits on the
first `false` and propagates a thrown exception. -/
def everyNumericXY : List Json → Except Unit Bool
  | [] => .ok true
  | p :: rest => do
    let b ← elementNumericXY p
    if b then everyNumericXY rest else pure false

/-- The number stored in field `k` of an accepted element (each accepted
element is an object with numeric `x` and `y`, so the 0 fallback for the
other constructors is unreachable on the accepted path; it stands in for
the `NaN` JavaScript would produce). -/
def jsonNumField (p : Json) (k : String) : ℚ :=
  match p with
  | .obj fields =>
    match fields.lookup k with
    | some (.num q) => q
    | _ => 0
  | _ => 0

/-- `new THREE.Vector2(p.x, p.y)` on an accepted element. -/
def jsonToVec2 (p : Json) : Vec2 := ⟨jsonNumField p "x", jsonNumField p "y"⟩

/-- The three observable outcomes of `importData`'s `onload` body:
acceptance, `alert('Invalid JSON file format.')`, and
`alert('Error reading or parsing JSON file.')` (the `catch` branch). -/
inductive ImportOutcome where
  | accepted
  | rejectedInvalidFormat
  | rejectedParseError
deriving DecidableEq, Repr

/-- `importData`'s `reader.onload` body.  The input is the result of
`JSON.parse` (`Except.error` = parse threw).  On
`Array.isArray(json) && json.every(...)` the points are replaced and the
selection cleared; a failed check alerts `Invalid JSON file format.`; a
thrown exception (parse error, or a `TypeError` from the validator on a
`null` element) is caught and alerts `Error reading or parsing JSON file.`;
in both rejection cases the state is untouched. -/
def importData (st : EditorState) (input : Except Unit Json) : EditorState × ImportOutcome :=
  match input with
  | .error _ => (st, .rejectedParseError)
  | .ok (.arr elems) =>
    match everyNumericXY elems with
    | .ok true =>
      ({ st with points := elems.map jsonToVec2, selectedPoint := none }, .accepted)
    | .ok false => (st, .rejectedInvalidFormat)
    | .error _ => (st, .rejectedParseError)
  | .ok _ => (st, .rejectedInvalidFormat)

/-- The pointer-gesture operations of the point-editing engine (the three
mutating gestures of the 2D surface plus pointer release). -/
inductive PointerOp where
  | mouseDown (pos : Vec2)
  | doubleClick (pos : Vec2)
  | mouseMove (pos : Vec2)
  | mouseUp
deriving DecidableEq, Repr

/-- Apply one pointer gesture. -/
def applyPointerOp (W H : ℚ) (st : EditorState) : PointerOp → EditorState
  | .mouseDown pos => mousedown W H st pos
  | .doubleClick pos => dblclick W H st pos
  | .mouseMove pos => handleMouseMove W H st pos
  | .mouseUp => handleMouseUp st

/-- Every mutating operation of the editor: the pointer gestures plus
direct coordinate edit, import, and reset. -/
inductive EditOp where
  | pointer (op : PointerOp)
  | coordEdit (newX newY : Option ℚ)
  | importFile (input : Except Unit Json)
  | reset

/-- Apply one mutating operation. -/
def applyEditOp (W H : ℚ) (st : EditorState) : EditOp → EditorState
  | .pointer op => applyPointerOp W H st op
  | .coordEdit nx ny => handleCoordinateChange st nx ny
  | .importFile input => (importData st input).1
  | .reset => resetState st

/-- Spec-side rendering of `buildRevolutionProfile`, following the spec's
words: copy the list; prepend `(0, firstPoint.y)` iff the FIRST point's
`x > 0`; append `(0, lastPoint.y)` iff the (ORIGINAL) LAST point's `x > 0`;
then replace every `x` with `max(0.01, x)`.  This differs textually from the
source, which reads the last point off the list after the prepend; the
refinement theorem shows the two agree on profiles of length at least 2. -/
def buildRevolutionProfileSpec (points : List Vec2) : List Vec2 :=
  let withTop : List Vec2 :=
    match points.head? with
    | some firstPoint => if firstPoint.x > 0 then ⟨0, firstPoint.y⟩ :: points else points
    | none => points
  let withCaps : List Vec2 :=
    match points.getLast? with
    | some lastPoint => if lastPoint.x > 0 then withTop ++ [⟨0, lastPoint.y⟩] else withTop
    | none => withTop
  withCaps.map (fun p => ⟨qmax (1/100) p.x, p.y⟩)

/-- Position `k` is the first minimizer of the list `ds`: no entry is
smaller, and every earlier entry is strictly larger (the `dist < closestDist`
loop keeps the first attainment of the minimum). -/
def FirstArgmin (ds : List ℚ) (k : ℕ) : Prop :=
  ∃ hk : k < ds.length,
    (∀ j (hj : j < ds.length), ds.get ⟨k, hk⟩ ≤ ds.get ⟨j, hj⟩) ∧
    ∀ j (hj : j < ds.length), j < k → ds.get ⟨k, hk⟩ < ds.get ⟨j, hj⟩

/-- Spec-side statement of the import validator's element check: the
element is an object whose `x` and `y` properties are numbers. -/
def HasNumericXY (p : Json) : Prop :=
  ∃ fields, p = Json.obj fields ∧
    (∃ qx, fields.lookup "x" = some (Json.num qx)) ∧
    (∃ qy, fields.lookup "y" = some (Json.num qy))

/-- Selection validity: whenever `selectedPoint` is set, it indexes into the
current point list. -/
def SelectionValid (st : EditorState) : Prop :=
  ∀ i, st.selectedPoint = some i → i < st.points.length

/-- Claim C5: the coordinate transforms are mutually inverse: for every
model-space point `p`, `toWorldCoords (toCanvasCoords p) = p` — exactly, in
the rational embedding (hence a fortiori within floating-point tolerance),
with scale `worldScale = 50` and origin `(W/2, H/2)`; both functions are
pure Lean functions of their arguments. -/
theorem toWorldCoords_toCanvasCoords_roundtrip (W H : ℚ) (p : Vec2) :
    toWorldCoords W H (toCanvasCoords W H p) = p := by
  cases p with
  | mk px py =>
    simp [toWorldCoords, toCanvasCoords, worldScale]

/-- Claim C1, counterexample: on the default profile (all x > 0) the builder
does NOT return the claimed list with caps `(0, 2)` and `(0, -2)` — the
final `max(0.01, x)` clamp applies to the synthetic caps as well. -/
theorem update3DModel_default_caps_not_zero : update3DModel DEFAULT_POINTS ≠
    some [⟨0, 2⟩, ⟨1/2, 2⟩, ⟨3/2, 1⟩, ⟨3/2, -1⟩, ⟨1/2, -2⟩, ⟨0, -2⟩] := by
  norm_num [update3DModel, buildRevolutionProfile, DEFAULT_POINTS, qmax]

/-- Claim C1, amended: for Profile `[(0.5,2),(1.5,1),(1.5,-1),(0.5,-2)]`
(all x > 0) the profile construction of `update3DModel` produces exactly
6 points: the prepended cap `(0,2)` and the appended cap `(0,-2)` are
clamped, like every point of the result, to x = 0.01 — giving
`(0.01, 2)` and `(0.01, -2)` — while the 4 original points keep their x
(each is ≥ 0.01). -/
theorem update3DModel_default_profile : update3DModel DEFAULT_POINTS =
    some [⟨1/100, 2⟩, ⟨1/2, 2⟩, ⟨3/2, 1⟩, ⟨3/2, -1⟩, ⟨1/2, -2⟩, ⟨1/100, -2⟩] := by
  norm_num [update3DModel, buildRevolutionProfile, DEFAULT_POINTS, qmax]

/-- Claim C2: for every Profile of length ≥ 2 the source's revolution-profile
construction agrees with the spec's description (`buildRevolutionProfileSpec`:
prepend `(0, first.y)` iff first x > 0, append `(0, last.y)` iff the ORIGINAL
last point's x > 0, then clamp every x to `max(0.01, x)`; the copy / "source
Profile unchanged" step is inherent in the purely functional embedding).  In
particular `[(0,3),(1,3),(1,-3),(0,-3)]` yields exactly the 4 original points
with x clamped and no caps added. -/
theorem buildRevolutionProfile_matches_spec :
    (∀ ps : List Vec2, 2 ≤ ps.length →
      buildRevolutionProfile ps = buildRevolutionProfileSpec ps) ∧
    buildRevolutionProfile [⟨0, 3⟩, ⟨1, 3⟩, ⟨1, -3⟩, ⟨0, -3⟩] =
      [⟨1/100, 3⟩, ⟨1, 3⟩, ⟨1, -3⟩, ⟨1/100, -3⟩] := by
  constructor
  · intro ps h
    match ps with
    | a :: b :: rest =>
      by_cases ha : a.x > 0
      · simp [buildRevolutionProfile, buildRevolutionProfileSpec, ha, List.getLast?_cons_cons]
      · simp [buildRevolutionProfile, buildRevolutionProfileSpec, ha]
  · norm_num [buildRevolutionProfile, qmax]

/-- Claim C2, witness: the general refinement applied at the concrete no-cap
profile, with the length hypothesis discharged. -/
theorem buildRevolutionProfile_matches_spec_witness :
    buildRevolutionProfile [⟨0, 3⟩, ⟨1, 3⟩, ⟨1, -3⟩, ⟨0, -3⟩] =
      buildRevolutionProfileSpec [⟨0, 3⟩, ⟨1, 3⟩, ⟨1, -3⟩, ⟨0, -3⟩] :=
  buildRevolutionProfile_matches_spec.1 [⟨0, 3⟩, ⟨1, 3⟩, ⟨1, -3⟩, ⟨0, -3⟩] (by simp)

/-- Helper: the hit-test loop only returns indices between its starting
counter and the end of the scanned list. -/
theorem hitTestLoop_some_bound (W H : ℚ) (pos : Vec2) (l : List Vec2) :
    ∀ i j : ℕ, hitTestLoop W H pos l i = some j → i ≤ j ∧ j < i + l.length := by
  induction l with
  | nil => intro i j h; simp [hitTestLoop] at h
  | cons p rest ih =>
    intro i j h
    simp only [hitTestLoop] at h
    split at h
    · cases h
      simp
    · have := ih (i + 1) j h
      simp only [List.length_cons]
      omega

/-- Helper: a successful hit-test yields a valid index into the profile. -/
theorem hitTest_some_lt (W H : ℚ) (ps : List Vec2) (pos : Vec2) (j : ℕ)
    (h : hitTest W H ps pos = some j) : j < ps.length := by
  have := hitTestLoop_some_bound W H pos ps 0 j h
  omega

/-- Helper: a profile of `n` points has `n - 1` segment distances. -/
theorem segmentDists_length (wp : Vec2) : ∀ ps : List Vec2,
    (segmentDists wp ps).length = ps.length - 1
  | [] => rfl
  | [_] => rfl
  | p1 :: p2 :: rest => by
    have := segmentDists_length wp (p2 :: rest)
    simp [segmentDists] at this ⊢
    omega

/-- Helper: the insertion loop either keeps its default index or returns
`i + 1 + k` for some scanned position `k`. -/
theorem insLoop_snd_bound : ∀ (ds : List ℚ) (i : ℕ) (c : Option ℚ) (idx : ℕ),
    (insLoop ds i c idx).2 = idx ∨ ∃ k, k < ds.length ∧ (insLoop ds i c idx).2 = i + 1 + k := by
  intro ds
  induction ds with
  | nil => intro i c idx; left; rfl
  | cons d rest ih =>
    intro i c idx
    simp only [insLoop]
    split
    · rcases ih (i + 1) (some d) (i + 1) with h | ⟨k, hk, h⟩
      · right
        exact ⟨0, by simp, by omega⟩
      · right
        refine ⟨k + 1, by simp; omega, by omega⟩
    · rcases ih (i + 1) c idx with h | ⟨k, hk, h⟩
      · left; exact h
      · right
        refine ⟨k + 1, by simp; omega, by omega⟩

/-- Helper: the computed insertion index never exceeds the profile length,
so the subsequent `splice` is a genuine insertion. -/
theorem findInsertionIndex_le (wp : Vec2) (ps : List Vec2) :
    findInsertionIndex wp ps ≤ ps.length := by
  unfold findInsertionIndex
  rcases insLoop_snd_bound (segmentDists wp ps) 0 none ps.length with h | ⟨k, hk, h⟩
  · omega
  · have := segmentDists_length wp ps
    omega

/-- Helper: full characterization of the insertion loop started from a
current best `c`: either nothing beats `c` and the accumulator is returned
unchanged, or the result records the first minimizer below `c`. -/
theorem insLoop_some_spec : ∀ (ds : List ℚ) (i idx : ℕ) (c : ℚ),
    (insLoop ds i (some c) idx = (some c, idx) ∧
      ∀ j (hj : j < ds.length), c ≤ ds.get ⟨j, hj⟩) ∨
    ∃ k, ∃ hk : k < ds.length,
      insLoop ds i (some c) idx = (some (ds.get ⟨k, hk⟩), i + 1 + k) ∧
      ds.get ⟨k, hk⟩ < c ∧
      (∀ j (hj : j < ds.length), ds.get ⟨k, hk⟩ ≤ ds.get ⟨j, hj⟩) ∧
      (∀ j (hj : j < ds.length), j < k → ds.get ⟨k, hk⟩ < ds.get ⟨j, hj⟩) := by
  intro ds
  induction ds with
  | nil =>
    intro i idx c
    left
    exact ⟨rfl, fun j hj => absurd hj (by simp)⟩
  | cons d rest ih =>
    intro i idx c
    by_cases hdc : d < c
    · right
      have hstep : insLoop (d :: rest) i (some c) idx = insLoop rest (i + 1) (some d) (i + 1) := by
        simp [insLoop, ltClosest, hdc]
      rcases ih (i + 1) (i + 1) d with ⟨heq, hall⟩ | ⟨k', hk', heq, hlt, hall, hfirst⟩
      · refine ⟨0, by simp, ?_, hdc, ?_, ?_⟩
        · rw [hstep, heq]
          simp
        · intro j hj
          cases j with
          | zero => simp
          | succ j' =>
            simpa using hall j' (by simpa using hj)
        · intro j hj hj0
          omega
      · refine ⟨k' + 1, by simpa using Nat.succ_lt_succ hk', ?_, lt_trans hlt hdc, ?_, ?_⟩
        · rw [hstep, heq]
          simp only [Prod.mk.injEq]
          exact ⟨by simp, by omega⟩
        · intro j hj
          cases j with
          | zero => simpa using le_of_lt hlt
          | succ j' => simpa using hall j' (by simpa using hj)
        · intro j hj hjk
          cases j with
          | zero => simpa using hlt
          | succ j' => simpa using hfirst j' (by simpa using hj) (by omega)
    · have hstep : insLoop (d :: rest) i (some c) idx = insLoop rest (i + 1) (some c) idx := by
        simp [insLoop, ltClosest, hdc]
      rcases ih (i + 1) idx c with ⟨heq, hall⟩ | ⟨k', hk', heq, hlt, hall, hfirst⟩
      · left
        refine ⟨by rw [hstep, heq], ?_⟩
        intro j hj
        cases j with
        | zero => simpa using le_of_not_lt hdc
        | succ j' => simpa using hall j' (by simpa using hj)
      · right
        refine ⟨k' + 1, by simpa using Nat.succ_lt_succ hk', ?_, hlt, ?_, ?_⟩
        · rw [hstep, heq]
          simp only [Prod.mk.injEq]
          exact ⟨by simp, by omega⟩
        · intro j hj
          cases j with
          | zero => simpa using le_of_lt (lt_of_lt_of_le hlt (le_of_not_lt hdc))
          | succ j' => simpa using hall j' (by simpa using hj)
        · intro j hj hjk
          cases j with
          | zero => simpa using lt_of_lt_of_le hlt (le_of_not_lt hdc)
          | succ j' => simpa using hfirst j' (by simpa using hj) (by omega)

/-- Helper: on a profile with at least one segment, the insertion index is
`k + 1` where `k` is the first distance-minimizing segment. -/
theorem findInsertionIndex_spec (wp : Vec2) (ps : List Vec2) (h : 2 ≤ ps.length) :
    ∃ k, FirstArgmin (segmentDists wp ps) k ∧ findInsertionIndex wp ps = k + 1 := by
  have hlen : (segmentDists wp ps).length = ps.length - 1 := segmentDists_length wp ps
  match hds : segmentDists wp ps with
  | [] =>
    exfalso
    rw [hds] at hlen
    simp at hlen
    omega
  | d :: rest =>
    have hstep : findInsertionIndex wp ps = (insLoop rest 1 (some d) 1).2 := by
      unfold findInsertionIndex
      rw [hds]
      simp [insLoop, ltClosest]
    rcases insLoop_some_spec rest 1 1 d with ⟨heq, hall⟩ | ⟨k', hk', heq, hlt, hall, hfirst⟩
    · refine ⟨0, ?_, ?_⟩
      · refine ⟨by simp, ?_, ?_⟩
        · intro j hj
          cases j with
          | zero => simp
          | succ j' => simpa using hall j' (by simpa using hj)
        · intro j hj hj0
          omega
      · rw [hstep, heq]
    · refine ⟨k' + 1, ?_, ?_⟩
      · refine ⟨by simpa using Nat.succ_lt_succ hk', ?_, ?_⟩
        · intro j hj
          cases j with
          | zero => simpa using le_of_lt hlt
          | succ j' => simpa using hall j' (by simpa using hj)
        · intro j hj hjk
          cases j with
          | zero => simpa using hlt
          | succ j' => simpa using hfirst j' (by simpa using hj) (by omega)
      · rw [hstep, heq]
        simp
        omega

/-- Claim C6, amended: when the mousedown hit-test misses, the new point
(the raw world-space click position) is inserted immediately after the first
segment index `k` minimizing the point-to-segment distance — i.e. at
`k + 1` — and the selection becomes `k + 1` (distances compared squared,
equivalently to the source's `sqrt` values).  The end-of-list default for
the insertion index survives only when the profile has no segment at all,
i.e. fewer than 2 POINTS (the claim's "fewer than 2 segments" is wrong for
one-segment profiles, see the counterexample). -/
theorem mousedown_insertion_spec (W H : ℚ) (st : EditorState) (pos : Vec2)
    (hmiss : hitTest W H st.points pos = none) :
    (2 ≤ st.points.length →
      ∃ k, FirstArgmin (segmentDists (toWorldCoords W H pos) st.points) k ∧
        (mousedown W H st pos).points
          = st.points.insertIdx (k + 1) (toWorldCoords W H pos) ∧
        (mousedown W H st pos).selectedPoint = some (k + 1)) ∧
    (st.points.length < 2 →
      (mousedown W H st pos).points = st.points ++ [toWorldCoords W H pos] ∧
      (mousedown W H st pos).selectedPoint = some st.points.length) := by
  have hmd : mousedown W H st pos =
      { st with
          points := st.points.insertIdx
            (findInsertionIndex (toWorldCoords W H pos) st.points) (toWorldCoords W H pos),
          selectedPoint := some (findInsertionIndex (toWorldCoords W H pos) st.points) } := by
    simp [mousedown, hmiss]
  constructor
  · intro h2
    obtain ⟨k, hfa, hidx⟩ := findInsertionIndex_spec (toWorldCoords W H pos) st.points h2
    exact ⟨k, hfa, by rw [hmd, hidx], by rw [hmd, hidx]⟩
  · intro hlt
    have hidx : findInsertionIndex (toWorldCoords W H pos) st.points = st.points.length := by
      have hds : segmentDists (toWorldCoords W H pos) st.points = [] := by
        rcases hp : st.points with _ | ⟨a, _ | ⟨b, r⟩⟩
        · rfl
        · rfl
        · rw [hp] at hlt
          simp at hlt
          omega
      unfold findInsertionIndex
      rw [hds]
      rfl
    refine ⟨?_, by rw [hmd, hidx]⟩
    rw [hmd, hidx]
    exact List.insertIdx_length_self _ _

/-- Claim C6, counterexample: a 2-point profile has 1 segment ("fewer than
2 segments"), yet a miss-click does NOT insert at the end of the list: on
profile `[(0.5,2),(0.5,-2)]` with a 400×400 canvas, clicking pixel
`(300,200)` (world `(2,0)`, no point within 6 px) inserts at index 1,
between the two points, not at the end. -/
theorem insertion_one_segment_not_at_end :
    (mousedown 400 400 ⟨[⟨1/2, 2⟩, ⟨1/2, -2⟩], none, false⟩ ⟨300, 200⟩).points
        = [⟨1/2, 2⟩, ⟨2, 0⟩, ⟨1/2, -2⟩] ∧
    (mousedown 400 400 ⟨[⟨1/2, 2⟩, ⟨1/2, -2⟩], none, false⟩ ⟨300, 200⟩).points
        ≠ [⟨1/2, 2⟩, ⟨1/2, -2⟩] ++ [⟨2, 0⟩] := by
  constructor <;>
    norm_num [mousedown, hitTest, hitTestLoop, toCanvasCoords, toWorldCoords, distSq,
      worldScale, findInsertionIndex, segmentDists, distanceToSegmentSq, qmax, qmin,
      insLoop, ltClosest, List.insertIdx]

/-- Claim C6, witness: the amended insertion spec applied at the default
4-point profile and the miss-click at pixel `(300,200)`, hypotheses
discharged concretely. -/
theorem mousedown_insertion_spec_witness :
    ∃ k, FirstArgmin
        (segmentDists (toWorldCoords 400 400 ⟨300, 200⟩) DEFAULT_POINTS) k ∧
      (mousedown 400 400 ⟨DEFAULT_POINTS, none, false⟩ ⟨300, 200⟩).points
        = DEFAULT_POINTS.insertIdx (k + 1) (toWorldCoords 400 400 ⟨300, 200⟩) ∧
      (mousedown 400 400 ⟨DEFAULT_POINTS, none, false⟩ ⟨300, 200⟩).selectedPoint
        = some (k + 1) :=
  (mousedown_insertion_spec 400 400 ⟨DEFAULT_POINTS, none, false⟩ ⟨300, 200⟩
    (by norm_num [hitTest, hitTestLoop, DEFAULT_POINTS, toCanvasCoords, distSq, worldScale])).1
    (by simp [DEFAULT_POINTS])

/-- Helper: a drag update overwrites a point in place and never changes the
profile length. -/
theorem handleMouseMove_length (W H : ℚ) (st : EditorState) (m : Vec2) :
    (handleMouseMove W H st m).points.length = st.points.length := by
  cases hd : st.isDragging <;> cases hs : st.selectedPoint <;>
    simp [handleMouseMove, hd, hs]

/-- Helper: a mousedown either selects (length unchanged) or inserts
(length grows by one); it never shrinks the profile. -/
theorem length_le_mousedown (W H : ℚ) (st : EditorState) (pos : Vec2) :
    st.points.length ≤ (mousedown W H st pos).points.length := by
  cases h : hitTest W H st.points pos with
  | some i => simp [mousedown, h]
  | none =>
    simp only [mousedown, h]
    rw [List.length_insertIdx _ _ (findInsertionIndex_le _ _)]
    omega

/-- Helper: a double-click preserves `length ≥ 2`: deletion only happens
when the length exceeds 2. -/
theorem dblclick_length_ge (W H : ℚ) (st : EditorState) (pos : Vec2)
    (h2 : 2 ≤ st.points.length) : 2 ≤ (dblclick W H st pos).points.length := by
  cases h : hitTest W H st.points pos with
  | some i =>
    by_cases hgt : 2 < st.points.length
    · have hi : i < st.points.length := hitTest_some_lt W H st.points pos i h
      have := List.length_eraseIdx_add_one hi
      simp only [dblclick, h, if_pos hgt]
      omega
    · simp [dblclick, h, hgt, h2]
  | none => simp [dblclick, h, h2]

/-- Claim C3: starting from any profile with at least 2 points, any
sequence of the editing gestures (insert-on-click / select via `mousedown`,
delete via `dblclick`, drag via `handleMouseMove`, release) leaves
`points.length ≥ 2`: deletion is refused at 2 points, insertion only grows
the list, and dragging overwrites in place. -/
theorem profile_length_ge_two_invariant (W H : ℚ) (ops : List PointerOp) (st : EditorState)
    (h : 2 ≤ st.points.length) :
    2 ≤ (ops.foldl (applyPointerOp W H) st).points.length := by
  induction ops generalizing st with
  | nil => exact h
  | cons op rest ih =>
    simp only [List.foldl_cons]
    apply ih
    cases op with
    | mouseDown pos => exact le_trans h (length_le_mousedown W H st pos)
    | doubleClick pos => exact dblclick_length_ge W H st pos h
    | mouseMove pos =>
      simpa [applyPointerOp, handleMouseMove_length] using h
    | mouseUp => simpa [applyPointerOp, handleMouseUp] using h

/-- Claim C3, witness: the invariant applied to a concrete gesture sequence
(a double-click on the first default point, then an inserting click) from
the default 4-point profile. -/
theorem profile_length_ge_two_invariant_witness :
    2 ≤ (([PointerOp.doubleClick ⟨225, 100⟩, PointerOp.mouseDown ⟨300, 200⟩].foldl
      (applyPointerOp 400 400) ⟨DEFAULT_POINTS, none, false⟩).points.length) :=
  profile_length_ge_two_invariant 400 400 _ _ (by simp [DEFAULT_POINTS])

/-- Helper: importing either clears the selection (accepted payload) or
leaves the whole state untouched (rejected payload). -/
theorem importData_selection (st : EditorState) (input : Except Unit Json) :
    (importData st input).1.selectedPoint = none ∨ (importData st input).1 = st := by
  match input with
  | .error _ => right; rfl
  | .ok (.arr elems) =>
    match h : everyNumericXY elems with
    | .ok true => left; simp [importData, h]
    | .ok false => right; simp [importData, h]
    | .error _ => right; simp [importData, h]
  | .ok .null => right; rfl
  | .ok (.bool b) => right; rfl
  | .ok (.num q) => right; rfl
  | .ok (.str s) => right; rfl
  | .ok (.obj fields) => right; rfl

/-- Helper: every single mutating operation preserves selection validity:
`mousedown` selects a hit index or the inserted index, `dblclick` clears or
refuses, drag and coordinate edit overwrite in place, import clears or
refuses, reset clears. -/
theorem selection_valid_step (W H : ℚ) (st : EditorState) (op : EditOp)
    (h : SelectionValid st) : SelectionValid (applyEditOp W H st op) := by
  cases op with
  | pointer pop =>
    cases pop with
    | mouseDown pos =>
      cases hh : hitTest W H st.points pos with
      | some i =>
        have hres : applyEditOp W H st (.pointer (.mouseDown pos)) =
            { st with selectedPoint := some i, isDragging := true } := by
          simp [applyEditOp, applyPointerOp, mousedown, hh]
        rw [hres]
        intro j hj
        have hij : i = j := by simpa using hj
        subst hij
        simpa using hitTest_some_lt W H st.points pos i hh
      | none =>
        have hres : applyEditOp W H st (.pointer (.mouseDown pos)) =
            { st with
                points := st.points.insertIdx
                  (findInsertionIndex (toWorldCoords W H pos) st.points)
                  (toWorldCoords W H pos),
                selectedPoint :=
                  some (findInsertionIndex (toWorldCoords W H pos) st.points) } := by
          simp [applyEditOp, applyPointerOp, mousedown, hh]
        rw [hres]
        intro j hj
        have hij : findInsertionIndex (toWorldCoords W H pos) st.points = j := by
          simpa using hj
        subst hij
        show findInsertionIndex (toWorldCoords W H pos) st.points <
          (st.points.insertIdx (findInsertionIndex (toWorldCoords W H pos) st.points)
            (toWorldCoords W H pos)).length
        rw [List.length_insertIdx _ _ (findInsertionIndex_le _ _)]
        have := findInsertionIndex_le (toWorldCoords W H pos) st.points
        omega
    | doubleClick pos =>
      cases hh : hitTest W H st.points pos with
      | some i =>
        by_cases hgt : 2 < st.points.length
        · have hres : applyEditOp W H st (.pointer (.doubleClick pos)) =
              { st with points := st.points.eraseIdx i, selectedPoint := none } := by
            simp [applyEditOp, applyPointerOp, dblclick, hh, hgt]
          rw [hres]
          intro j hj
          simp at hj
        · have hres : applyEditOp W H st (.pointer (.doubleClick pos)) = st := by
            simp [applyEditOp, applyPointerOp, dblclick, hh, hgt]
          rw [hres]
          exact h
      | none =>
        have hres : applyEditOp W H st (.pointer (.doubleClick pos)) = st := by
          simp [applyEditOp, applyPointerOp, dblclick, hh]
        rw [hres]
        exact h
    | mouseMove pos =>
      cases hd : st.isDragging with
      | false =>
        have hres : applyEditOp W H st (.pointer (.mouseMove pos)) = st := by
          simp [applyEditOp, applyPointerOp, handleMouseMove, hd]
        rw [hres]
        exact h
      | true =>
        cases hs : st.selectedPoint with
        | none =>
          have hres : applyEditOp W H st (.pointer (.mouseMove pos)) = st := by
            simp [applyEditOp, applyPointerOp, handleMouseMove, hd, hs]
          rw [hres]
          exact h
        | some i =>
          intro j hj
          have hj' : st.selectedPoint = some j := by
            simpa [applyEditOp, applyPointerOp, handleMouseMove, hd, hs] using hj
          have := h j hj'
          simpa [applyEditOp, applyPointerOp, handleMouseMove, hd, hs,
            List.length_set] using this
    | mouseUp =>
      intro j hj
      have hj' : st.selectedPoint = some j := by
        simpa [applyEditOp, applyPointerOp, handleMouseUp] using hj
      have := h j hj'
      simpa [applyEditOp, applyPointerOp, handleMouseUp] using this
  | coordEdit nx ny =>
    cases hs : st.selectedPoint with
    | none =>
      have hres : applyEditOp W H st (.coordEdit nx ny) = st := by
        simp [applyEditOp, handleCoordinateChange, hs]
      rw [hres]
      exact h
    | some i =>
      cases nx with
      | none =>
        have hres : applyEditOp W H st (.coordEdit none ny) = st := by
          simp [applyEditOp, handleCoordinateChange, hs]
        rw [hres]
        exact h
      | some vx =>
        cases ny with
        | none =>
          have hres : applyEditOp W H st (.coordEdit (some vx) none) = st := by
            simp [applyEditOp, handleCoordinateChange, hs]
          rw [hres]
          exact h
        | some vy =>
          intro j hj
          have hj' : st.selectedPoint = some j := by
            simpa [applyEditOp, handleCoordinateChange, hs] using hj
          have := h j hj'
          simpa [applyEditOp, handleCoordinateChange, hs, List.length_set] using this
  | importFile input =>
    rcases importData_selection st input with hnone | hsame
    · intro j hj
      have : (importData st input).1.selectedPoint = some j := hj
      rw [hnone] at this
      cases this
    · show SelectionValid (importData st input).1
      rw [hsame]
      exact h
  | reset =>
    intro j hj
    simp [applyEditOp, resetState] at hj

/-- Claim C4: after any sequence of mutating operations (mousedown
select/insert, double-click delete, drag update, direct coordinate edit,
import, reset), a non-`none` selection is a valid index into the current
profile. -/
theorem selection_valid_invariant (W H : ℚ) (ops : List EditOp) (st : EditorState)
    (h : SelectionValid st) : SelectionValid (ops.foldl (applyEditOp W H) st) := by
  induction ops generalizing st with
  | nil => exact h
  | cons op rest ih =>
    simp only [List.foldl_cons]
    exact ih _ (selection_valid_step W H st op h)

/-- Claim C4, witness: the invariant applied to a concrete operation
sequence from the default state, hypothesis discharged. -/
theorem selection_valid_invariant_witness :
    SelectionValid ([EditOp.pointer (.mouseDown ⟨300, 200⟩), EditOp.reset].foldl
      (applyEditOp 400 400) ⟨DEFAULT_POINTS, none, false⟩) :=
  selection_valid_invariant 400 400 _ _ (by intro i hi; simp at hi)

/-- Claim C7 (code bug): insert-on-click does NOT clamp the new point's
x-coordinate.  With the default 4-point profile on a 400×400 canvas, a
miss-click at pixel `(100, 200)` — left of the vertical center line — inserts
the raw world position `(-2, 0)` (at index 1), whose x is negative; the
insertion branch of the `mousedown` handler has no `Math.max(0, ...)`,
unlike the drag and coordinate-edit paths. -/
theorem insertion_x_not_clamped :
    (mousedown 400 400 ⟨DEFAULT_POINTS, none, false⟩ ⟨100, 200⟩).points
      = [⟨1/2, 2⟩, ⟨-2, 0⟩, ⟨3/2, 1⟩, ⟨3/2, -1⟩, ⟨1/2, -2⟩] ∧
    toWorldCoords 400 400 ⟨100, 200⟩ = ⟨-2, 0⟩ ∧ (-2 : ℚ) < 0 := by
  refine ⟨?_, ?_, by norm_num⟩
  · norm_num [mousedown, hitTest, hitTestLoop, DEFAULT_POINTS, toCanvasCoords, toWorldCoords,
      distSq, worldScale, findInsertionIndex, segmentDists, distanceToSegmentSq, qmax, qmin,
      insLoop, ltClosest, List.insertIdx]
  · norm_num [toWorldCoords, worldScale]

/-- Claim C8: on a double-click, if the profile has at most 2 points the
handler is a complete no-op (state unchanged); if the hit-test succeeds at
index `i` and the profile has more than 2 points, exactly that point is
removed and the selection is cleared. -/
theorem dblclick_delete_spec (W H : ℚ) (st : EditorState) (pos : Vec2) :
    (st.points.length ≤ 2 → dblclick W H st pos = st) ∧
    (∀ i, hitTest W H st.points pos = some i → 2 < st.points.length →
      (dblclick W H st pos).points = st.points.eraseIdx i ∧
      (dblclick W H st pos).selectedPoint = none) := by
  constructor
  · intro hle
    cases hh : hitTest W H st.points pos with
    | none => simp [dblclick, hh]
    | some i => simp [dblclick, hh, show ¬2 < st.points.length by omega]
  · intro i hi hgt
    constructor <;> simp [dblclick, hi, hgt]

/-- Claim C8, witness: the deletion spec applied at a 2-point profile
(no-op) and at a 3-point profile with a hit on point 0 (removed, selection
cleared), hypotheses discharged concretely. -/
theorem dblclick_delete_spec_witness :
    dblclick 400 400 ⟨[⟨0, 0⟩, ⟨1, 0⟩], none, false⟩ ⟨200, 200⟩
        = ⟨[⟨0, 0⟩, ⟨1, 0⟩], none, false⟩ ∧
    (dblclick 400 400 ⟨[⟨0, 0⟩, ⟨1, 0⟩, ⟨2, 0⟩], none, false⟩ ⟨200, 200⟩).points
        = ([⟨0, 0⟩, ⟨1, 0⟩, ⟨2, 0⟩] : List Vec2).eraseIdx 0 ∧
    (dblclick 400 400 ⟨[⟨0, 0⟩, ⟨1, 0⟩, ⟨2, 0⟩], none, false⟩ ⟨200, 200⟩).selectedPoint
        = none :=
  ⟨(dblclick_delete_spec 400 400 ⟨[⟨0, 0⟩, ⟨1, 0⟩], none, false⟩ ⟨200, 200⟩).1 (by simp),
   ((dblclick_delete_spec 400 400 ⟨[⟨0, 0⟩, ⟨1, 0⟩, ⟨2, 0⟩], none, false⟩ ⟨200, 200⟩).2 0
      (by norm_num [hitTest, hitTestLoop, toCanvasCoords, distSq, worldScale])
      (by simp)).1,
   ((dblclick_delete_spec 400 400 ⟨[⟨0, 0⟩, ⟨1, 0⟩, ⟨2, 0⟩], none, false⟩ ⟨200, 200⟩).2 0
      (by norm_num [hitTest, hitTestLoop, toCanvasCoords, distSq, worldScale])
      (by simp)).2⟩

/-- Helper: the code's element check returns `ok true` exactly on elements
that are objects with numeric `x` and `y` (a `null` element throws, every
other shape yields `false`). -/
theorem elementNumericXY_ok_true_iff (p : Json) :
    elementNumericXY p = .ok true ↔ HasNumericXY p := by
  cases p with
  | null => simp [elementNumericXY, jsGetField, HasNumericXY, bind, Except.bind]
  | bool b => simp [elementNumericXY, jsGetField, typeofIsNumber, HasNumericXY, bind, Except.bind, pure, Except.pure]
  | num q => simp [elementNumericXY, jsGetField, typeofIsNumber, HasNumericXY, bind, Except.bind, pure, Except.pure]
  | str s => simp [elementNumericXY, jsGetField, typeofIsNumber, HasNumericXY, bind, Except.bind, pure, Except.pure]
  | arr elems => simp [elementNumericXY, jsGetField, typeofIsNumber, HasNumericXY, bind, Except.bind, pure, Except.pure]
  | obj fields =>
    cases hx : fields.lookup "x" with
    | none => simp [elementNumericXY, jsGetField, typeofIsNumber, HasNumericXY, bind, Except.bind, pure, Except.pure, hx]
    | some vx =>
      cases vx with
      | num qx =>
        cases hy : fields.lookup "y" with
        | none => simp [elementNumericXY, jsGetField, typeofIsNumber, HasNumericXY, bind, Except.bind, pure, Except.pure, hx, hy]
        | some vy =>
          cases vy <;>
            simp [elementNumericXY, jsGetField, typeofIsNumber, HasNumericXY, bind, Except.bind, pure, Except.pure, hx, hy]
      | null => simp [elementNumericXY, jsGetField, typeofIsNumber, HasNumericXY, bind, Except.bind, pure, Except.pure, hx]
      | bool b => simp [elementNumericXY, jsGetField, typeofIsNumber, HasNumericXY, bind, Except.bind, pure, Except.pure, hx]
      | str s => simp [elementNumericXY, jsGetField, typeofIsNumber, HasNumericXY, bind, Except.bind, pure, Except.pure, hx]
      | arr elems => simp [elementNumericXY, jsGetField, typeofIsNumber, HasNumericXY, bind, Except.bind, pure, Except.pure, hx]
      | obj fs => simp [elementNumericXY, jsGetField, typeofIsNumber, HasNumericXY, bind, Except.bind, pure, Except.pure, hx]

/-- Helper: the `every` fold returns `ok true` exactly when all elements
satisfy the element predicate. -/
theorem everyNumericXY_ok_true_iff (l : List Json) :
    everyNumericXY l = .ok true ↔ ∀ p ∈ l, HasNumericXY p := by
  induction l with
  | nil => simp [everyNumericXY]
  | cons p rest ih =>
    cases he : elementNumericXY p with
    | error e =>
      have hnp : ¬HasNumericXY p := by
        intro hp
        rw [← elementNumericXY_ok_true_iff] at hp
        rw [he] at hp
        cases hp
      simp [everyNumericXY, he, hnp, bind, Except.bind, pure, Except.pure]
    | ok b =>
      cases b with
      | false =>
        have hnp : ¬HasNumericXY p := by
          intro hp
          rw [← elementNumericXY_ok_true_iff] at hp
          rw [he] at hp
          cases hp
        simp [everyNumericXY, he, hnp, bind, Except.bind, pure, Except.pure]
      | true =>
        have hp : HasNumericXY p := (elementNumericXY_ok_true_iff p).mp he
        simp [everyNumericXY, he, hp, ih, bind, Except.bind, pure, Except.pure]

/-- Claim C9: an import payload is accepted if and only if it parsed to an
array whose every element has numeric `x` and `y`; any rejection (bad shape,
or a parse/validator exception) leaves the in-memory state completely
unchanged and surfaces one of the two alert outcomes.  In particular
`[{"x":1,"y":"bad"}]` is rejected with the format alert and the state kept. -/
theorem importData_validation_spec (st : EditorState) (input : Except Unit Json) :
    ((importData st input).2 = .accepted ↔
      ∃ elems, input = .ok (.arr elems) ∧ ∀ p ∈ elems, HasNumericXY p) ∧
    ((importData st input).2 ≠ .accepted → (importData st input).1 = st) ∧
    importData st (.ok (.arr [.obj [("x", .num 1), ("y", .str "bad")]]))
      = (st, .rejectedInvalidFormat) := by
  refine ⟨?_, ?_, rfl⟩
  · match input with
    | .error e => simp [importData]
    | .ok (.arr elems) =>
      cases he : everyNumericXY elems with
      | ok b =>
        cases b with
        | true =>
          simp only [importData, he]
          constructor
          · intro
            exact ⟨elems, rfl, (everyNumericXY_ok_true_iff elems).mp he⟩
          · intro
            trivial
        | false =>
          simp only [importData, he]
          constructor
          · intro hcon
            cases hcon
          · rintro ⟨elems2, heq, hall⟩
            cases heq
            rw [(everyNumericXY_ok_true_iff elems).mpr hall] at he
            cases he
      | error e =>
        simp only [importData, he]
        constructor
        · intro hcon
          cases hcon
        · rintro ⟨elems2, heq, hall⟩
          cases heq
          rw [(everyNumericXY_ok_true_iff elems).mpr hall] at he
          cases he
    | .ok .null => simp [importData]
    | .ok (.bool b) => simp [importData]
    | .ok (.num q) => simp [importData]
    | .ok (.str s2) => simp [importData]
    | .ok (.obj fields) => simp [importData]
  · intro hne
    match input with
    | .error e => rfl
    | .ok (.arr elems) =>
      cases he : everyNumericXY elems with
      | ok b =>
        cases b with
        | true =>
          exfalso
          apply hne
          simp [importData, he]
        | false => simp [importData, he]
      | error e => simp [importData, he]
    | .ok .null => rfl
    | .ok (.bool b) => rfl
    | .ok (.num q) => rfl
    | .ok (.str s2) => rfl
    | .ok (.obj fields) => rfl

/-- Claim C9, witness: the unchanged-on-rejection clause applied at a
concrete rejected payload (a bare JSON string), hypothesis discharged. -/
theorem importData_validation_spec_witness :
    (importData ⟨DEFAULT_POINTS, none, false⟩
        (.ok (.str "oops"))).1 = ⟨DEFAULT_POINTS, none, false⟩ :=
  (importData_validation_spec ⟨DEFAULT_POINTS, none, false⟩ (.ok (.str "oops"))).2.1
    (by intro hcon; cases hcon)

/-- Claim C10: the empty array `[]` and any one-element array of numeric
`{x, y}` pass validation (the `every` check is vacuous on `[]`), replacing
the profile with fewer than 2 points — breaking the length ≥ 2 invariant
through import — after which the solid rebuild (`update3DModel`) and the 2D
polyline draw are skipped by their `length < 2` guards instead of failing. -/
theorem importData_can_shrink_profile (W H : ℚ) (st : EditorState) (x y : ℚ) :
    ((importData st (.ok (.arr []))).2 = .accepted ∧
      (importData st (.ok (.arr []))).1.points.length < 2 ∧
      update3DModel (importData st (.ok (.arr []))).1.points = none ∧
      drawProfilePolyline W H (importData st (.ok (.arr []))).1.points = none) ∧
    ((importData st (.ok (.arr [.obj [("x", .num x), ("y", .num y)]]))).2 = .accepted ∧
      (importData st (.ok (.arr [.obj [("x", .num x), ("y", .num y)]]))).1.points.length < 2 ∧
      update3DModel
        (importData st (.ok (.arr [.obj [("x", .num x), ("y", .num y)]]))).1.points = none ∧
      drawProfilePolyline W H
        (importData st (.ok (.arr [.obj [("x", .num x), ("y", .num y)]]))).1.points = none) :=
  ⟨⟨rfl, by simp [importData, everyNumericXY], rfl, rfl⟩,
   ⟨rfl, by simp [importData, everyNumericXY, elementNumericXY, jsGetField,
      typeofIsNumber, List.lookup, bind, Except.bind, pure, Except.pure], rfl, rfl⟩⟩

end PendantMaker
